import Mathlib

set_option maxHeartbeats 1000000

/-!
Formal model of `src/gui/static/angular-components/forms/semantic-value-form-directive.js`.

The directive watches `value.type` on its scope.  On every change it clears its
element, and, unless the new type is undefined, looks the type up in the
process-wide `templatesCache`.  On a hit it instantiates the cached template
into the element; on a miss it starts an asynchronous registry resolution
(`findDirectiveForType`) whose continuation builds a template (from the
success handler or the failure handler of `compileSingleTypedValueTemplate_`),
stores it in the cache under the type key captured at call time, and appends a
fresh instance to whatever the element holds at completion time.

We model this as a step function over an explicit state (cache contents,
element contents, in-flight resolutions, and a log of resolution calls) driven
by two kinds of events: a watch firing (`Event.typeChange`) and an in-flight
resolution completing (`Event.resolve`).  Asynchrony is captured by letting
any pending resolution complete at any later event, against the then-current
scope.  One simplification: the continuation in the source captures the value
object and the `templatesCache` object by reference; we capture the type key
(the only data the continuation reads from them) at call time, and let the
completion write into the current cache.
-/

/-- A JavaScript value as it can appear in the watched `value.type` field:
undefined, null, or a string type identifier. -/
inductive JsVal where
  | undef : JsVal
  | null : JsVal
  | str : String → JsVal

deriving instance DecidableEq, Repr for JsVal

/-- The bound semantic value: a record with a `type` field (other fields of the
record are never read by this directive). -/
structure RdfValue where
  type : JsVal

deriving instance DecidableEq, Repr for RdfValue

/-- The directive scope: `value` is the two-way bound semantic value, possibly
undefined. (`metadata` is passed through to rendered fragments untouched and
never read by the controller code itself, so it is not part of the model.) -/
structure Scope where
  value : Option RdfValue

deriving instance DecidableEq, Repr for Scope

/-- The Angular watch expression `value.type`, evaluated on a scope: undefined
when `value` is undefined, otherwise the value's `type` field. -/
def watchEval (sc : Scope) : JsVal :=
  match sc.value with
  | none => JsVal.undef
  | some v => v.type

/-- JavaScript property-key coercion used by `templatesCache[value['type']]`:
`null` and `undefined` become the strings "null" and "undefined". -/
def jsKey : JsVal → String
  | JsVal.undef => "undefined"
  | JsVal.null => "null"
  | JsVal.str s => s

/-- Angular text interpolation of the expression `value.type` against a scope
(as in the failure fragment's interpolation marker): undefined and null
interpolate to the empty string. -/
def interpolate (sc : Scope) : String :=
  match sc.value with
  | none => ""
  | some v =>
    match v.type with
    | JsVal.undef => ""
    | JsVal.null => ""
    | JsVal.str s => s

/-- ASCII test for the regex class `[a-z\d]`. -/
def isLowerOrDigit (c : Char) : Bool :=
  c.isLower || c.isDigit

/-- One global pass of `replace(/([a-z\d])([A-Z])/g, '$1-$2')` over the
characters of the input: a dash is inserted between a lowercase-or-digit
character and an immediately following uppercase character.  (The regex
consumes both matched characters, but since the second character of a match is
uppercase it can never begin another match, so the left-to-right pairwise scan
is equivalent.) -/
def camelDash : List Char → List Char
  | [] => []
  | [c] => [c]
  | c1 :: c2 :: rest =>
    if isLowerOrDigit c1 && c2.isUpper then
      c1 :: '-' :: camelDash (c2 :: rest)
    else
      c1 :: camelDash (c2 :: rest)

/-- `camelCaseToDashDelimited` from the source:
`directiveName.replace(/([a-z\d])([A-Z])/g, '$1-$2').toLowerCase()`. -/
def camelCaseToDashDelimited (directiveName : String) : String :=
  String.mk ((camelDash directiveName.data).map Char.toLower)

/-- A compiled template, as stored in `templatesCache`: either the compiled
host element produced by the success handler (carrying the derived tag name),
or the compiled failure fragment produced by the failure handler. -/
inductive Template where
  | widget : String → Template
  | noDirective : Template

deriving instance DecidableEq, Repr for Template

/-- A live fragment appended to the directive's element: an instance of a
widget host element, or an instance of the failure fragment with the
interpolated type text. -/
inductive Fragment where
  | widgetInst : String → Fragment
  | noDirectiveMsg : String → Fragment

deriving instance DecidableEq, Repr for Fragment

/-- Instantiating a template against a scope (`tmpl(this.scope_, ...)`): the
failure fragment interpolates `value.type` from the scope it is linked to. -/
def instantiate (t : Template) (sc : Scope) : Fragment :=
  match t with
  | Template.widget tag => Fragment.widgetInst tag
  | Template.noDirective => Fragment.noDirectiveMsg (interpolate sc)

/-- The markup of a rendered fragment.  The success handler compiles a
`<span />` whose inner HTML is the host element with the two attribute
bindings; the failure handler compiles a `<span />` whose inner HTML is the
static paragraph with the interpolation marker for `value.type`. -/
def renderText : Fragment → String
  | Fragment.widgetInst tag =>
      "<span>" ++ ("<" ++ tag ++ " metadata=\"metadata\" value=\"value\" />") ++ "</span>"
  | Fragment.noDirectiveMsg t =>
      "<span>" ++ ("<p class=\"form-control-static\">"
        ++ ("No directive for type: " ++ t ++ ".") ++ "</p>") ++ "</span>"

/-- The outcome of `findDirectiveForType`: success carries the resolved
directive descriptor's `directive_name`; failure means no directive is
registered for the type. -/
inductive ResolutionResult where
  | success : String → ResolutionResult
  | failure : ResolutionResult

deriving instance DecidableEq, Repr for ResolutionResult

/-- The template the resolution continuation ends up with: the success handler
builds the host element from the camel-case-converted directive name; the
failure handler builds the static failure fragment.  (Both handlers return a
compiled template, so the promise delivered to the caching continuation is
always a defined template.) -/
def templateOfResult : ResolutionResult → Template
  | ResolutionResult.success directive_name =>
      Template.widget (camelCaseToDashDelimited directive_name)
  | ResolutionResult.failure => Template.noDirective

/-- Directive state: the process-wide `templatesCache` (association list, most
recent entry first), the element's current child fragments, the type keys of
in-flight resolutions (continuations not yet run), and a log of every
`findDirectiveForType` call made so far. -/
structure State where
  cache : List (String × Template)
  element : List Fragment
  pending : List String
  resolutionCalls : List String

deriving instance DecidableEq, Repr for State

/-- The initial state: `templatesCache` starts empty, nothing rendered,
nothing in flight. -/
def initState : State :=
  { cache := [], element := [], pending := [], resolutionCalls := [] }

/-- Cache lookup `templatesCache[key]`. -/
def lookupCache : List (String × Template) → String → Option Template
  | [], _ => none
  | (k, t) :: rest, key => if k = key then some t else lookupCache rest key

/-- Cache store `templatesCache[key] = t` (prepending; `lookupCache` sees the
newest binding first, matching JavaScript property assignment). -/
def insertCache (c : List (String × Template)) (key : String) (t : Template) :
    List (String × Template) :=
  (key, t) :: c

/-- `clearCaches`: resets `templatesCache` to the empty object.  Rendered
output, in-flight resolutions and the call log are untouched. -/
def clearCaches (st : State) : State :=
  { st with cache := [] }

/-- The local `updateElement` helper: with a defined template it appends a
fresh instance to the element; with an undefined template it would fall into
the `element_.text` branch.  That branch first evaluates `this.value['type']`,
and `this.value` is undefined (the scope bindings live on the scope, not on
the controller), so reaching it throws before any text is set — modelled by
the total function leaving the element unchanged, and by the faithful
`updateElementE` below returning an error. -/
def updateElement (tmpl : Option Template) (sc : Scope) (elem : List Fragment) :
    List Fragment :=
  match tmpl with
  | some t => elem ++ [instantiate t sc]
  | none => elem

/-- Faithful (exception-aware) version of `updateElement`: the undefined-
template branch raises the TypeError that `this.value['type']` would throw. -/
def updateElementE (tmpl : Option Template) (sc : Scope) (elem : List Fragment) :
    Except String (List Fragment) :=
  match tmpl with
  | some t => Except.ok (elem ++ [instantiate t sc])
  | none => Except.error "TypeError: cannot read type of undefined this.value"

/-- `onValueTypeChange_`: clears the element, returns if the new watch value is
undefined, otherwise looks the type key up in the cache; a hit instantiates the
cached template into the just-cleared element, a miss calls
`findDirectiveForType` (logged) and leaves the continuation pending. -/
def onValueTypeChange_ (st : State) (sc : Scope) : State :=
  if watchEval sc = JsVal.undef then
    { st with element := [] }
  else
    match sc.value with
    | none => { st with element := [] }
    | some v =>
      match lookupCache st.cache (jsKey v.type) with
      | some tmpl => { st with element := updateElement (some tmpl) sc [] }
      | none =>
        { st with element := [],
                  pending := st.pending ++ [jsKey v.type],
                  resolutionCalls := st.resolutionCalls ++ [jsKey v.type] }

/-- Faithful (exception-aware) version of `onValueTypeChange_`.  The arm where
the watch value is defined but `scope_.value` is undefined would throw at
`value['type']`; it is unreachable because the watch expression evaluates to
undefined exactly when `value` is undefined. -/
def onValueTypeChangeE (st : State) (sc : Scope) : Except String State :=
  if watchEval sc = JsVal.undef then
    Except.ok { st with element := [] }
  else
    match sc.value with
    | none => Except.error "TypeError: cannot read type of undefined value"
    | some v =>
      match lookupCache st.cache (jsKey v.type) with
      | some tmpl =>
        match updateElementE (some tmpl) sc [] with
        | Except.ok e2 => Except.ok { st with element := e2 }
        | Except.error msg => Except.error msg
      | none =>
        Except.ok { st with element := [],
                            pending := st.pending ++ [jsKey v.type],
                            resolutionCalls := st.resolutionCalls ++ [jsKey v.type] }

/-- Completion of the in-flight resolution at index `i` of `pending`, with
result `res`, while the current scope is `sc`: the continuation stores the
handler's template in the cache under the captured type key (success or
failure alike) and appends a fresh instance to the element's current
contents — the element is not cleared and nothing is cancelled. -/
def completeResolution (st : State) (i : Nat) (res : ResolutionResult) (sc : Scope) :
    State :=
  match st.pending[i]? with
  | none => st
  | some key =>
    { st with pending := st.pending.eraseIdx i,
              cache := insertCache st.cache key (templateOfResult res),
              element := updateElement (some (templateOfResult res)) sc st.element }

/-- Faithful (exception-aware) version of `completeResolution`. -/
def completeResolutionE (st : State) (i : Nat) (res : ResolutionResult) (sc : Scope) :
    Except String State :=
  match st.pending[i]? with
  | none => Except.ok st
  | some key =>
    match updateElementE (some (templateOfResult res)) sc st.element with
    | Except.ok e2 =>
      Except.ok { st with pending := st.pending.eraseIdx i,
                          cache := insertCache st.cache key (templateOfResult res),
                          element := e2 }
    | Except.error msg => Except.error msg

/-- An observable event: the `value.type` watch firing with the current scope,
or the in-flight resolution at a given index completing with a result while
the scope has some current contents. -/
inductive Event where
  | typeChange : Scope → Event
  | resolve : Nat → ResolutionResult → Scope → Event

deriving instance DecidableEq, Repr for Event

/-- The directive's step function over events. -/
def step (st : State) : Event → State
  | Event.typeChange sc => onValueTypeChange_ st sc
  | Event.resolve i res sc => completeResolution st i res sc

/-- Faithful (exception-aware) step function. -/
def stepE (st : State) : Event → Except String State
  | Event.typeChange sc => onValueTypeChangeE st sc
  | Event.resolve i res sc => completeResolutionE st i res sc

/-- `startsWithL pat s` is true when `pat` is an initial segment of `s`. -/
def startsWithL : List Char → List Char → Bool
  | [], _ => true
  | _ :: _, [] => false
  | a :: as, b :: bs => a == b && startsWithL as bs

/-- `occursInL pat s` is true when `pat` occurs contiguously somewhere in
`s`. -/
def occursInL (pat : List Char) : List Char → Bool
  | [] => startsWithL pat []
  | b :: bs => startsWithL pat (b :: bs) || occursInL pat bs

/-- Whether some rendered fragment's markup contains the given literal text. -/
def outputContains (frags : List Fragment) (pat : String) : Bool :=
  frags.any (fun f => occursInL pat.data (renderText f).data)

/-- The literal text of the unreachable fallback branch
(`element_.text`): "Can't handle type: " (with a genuine apostrophe). -/
def cantHandleText : String :=
  "Can" ++ String.singleton (Char.ofNat 39) ++ "t handle type: "

/-- Modelled from the spec: the identifier transform described by its words —
for each character followed by another, emit the character and, exactly when it
is a lowercase letter or digit immediately followed by an uppercase letter, a
dash; then lowercase the whole string.  Used only to compare against the
source's `camelCaseToDashDelimited`. -/
def pairExpand : Char × Option Char → List Char
  | (a, some b) => if isLowerOrDigit a && b.isUpper then [a, '-'] else [a]
  | (a, none) => [a]

/-- Modelled from the spec: dash insertion expressed over each character paired
with its successor (if any), then lowercasing. -/
def specCamelCase (s : String) : String :=
  String.mk
    (((s.data.zip ((s.data.drop 1).map some ++ [none])).flatMap pairExpand).map Char.toLower)

/-- The naive transform the spec warns against: a dash before every uppercase
character, then lowercasing. -/
def naiveDashDelimited (s : String) : String :=
  String.mk ((s.data.flatMap (fun c => if c.isUpper then ['-', c] else [c])).map Char.toLower)

/-- Concrete value of type "Foo", used by concrete runs. -/
def vFoo : RdfValue := { type := JsVal.str "Foo" }

/-- Scope holding a value of type "Foo". -/
def scFoo : Scope := { value := some vFoo }

/-- Scope whose value is undefined (watch value undefined). -/
def scUndef : Scope := { value := none }

/-- State after a first render of type "Foo" on the empty cache: one pending
resolution for "Foo". -/
def stA : State := step initState (Event.typeChange scFoo)

/-- State after that resolution fails: the failure template has been cached
under "Foo" and its instance rendered. -/
def stB : State := step stA (Event.resolve 0 ResolutionResult.failure scFoo)

/-! ## Helper lemmas -/

/-- Looking up the key just stored finds the stored template. -/
theorem lookup_insert_self (c : List (String × Template)) (key : String) (t : Template) :
    lookupCache (insertCache c key t) key = some t := by
  simp [insertCache, lookupCache]

/-- An indexed element of a list survives appending on the right. -/
theorem getPending_append {α : Type} (l l2 : List α) (i : Nat) (a : α)
    (h : l[i]? = some a) : (l ++ l2)[i]? = some a := by
  induction l generalizing i with
  | nil => simp at h
  | cons x xs ih =>
    cases i with
    | zero => simpa using h
    | succ n =>
      simp only [List.cons_append, List.getElem?_cons_succ] at h ⊢
      exact ih n h

/-- A list starts with itself, whatever follows. -/
theorem startsWithL_append_self (p q : List Char) : startsWithL p (p ++ q) = true := by
  induction p with
  | nil => simp [startsWithL]
  | cons a as ih => simp [startsWithL, ih]

/-- A pattern that is an initial segment occurs in the list. -/
theorem occursInL_of_startsWithL (p s : List Char) (h : startsWithL p s = true) :
    occursInL p s = true := by
  cases s with
  | nil => simpa [occursInL] using h
  | cons b bs => simp [occursInL, h]

/-- Occurrence is preserved by prepending a character. -/
theorem occursInL_cons (p : List Char) (b : Char) (s : List Char)
    (h : occursInL p s = true) : occursInL p (b :: s) = true := by
  simp [occursInL, h]

/-- A pattern occurs in any list that embeds it contiguously. -/
theorem occursInL_append_mid (pre p post : List Char) :
    occursInL p (pre ++ (p ++ post)) = true := by
  induction pre with
  | nil => exact occursInL_of_startsWithL _ _ (startsWithL_append_self p post)
  | cons b bs ih => exact occursInL_cons _ _ _ ih

/-- Reduction of a type-change step when the watch value is undefined. -/
theorem typeChange_undef (st : State) (sc : Scope) (h : watchEval sc = JsVal.undef) :
    step st (Event.typeChange sc) = { st with element := [] } := by
  simp [step, onValueTypeChange_, h]

/-- Reduction of a type-change step on a cache hit. -/
theorem typeChange_hit (st : State) (sc : Scope) (v : RdfValue) (tmpl : Template)
    (hsc : sc.value = some v) (hv : v.type ≠ JsVal.undef)
    (hh : lookupCache st.cache (jsKey v.type) = some tmpl) :
    step st (Event.typeChange sc) = { st with element := [instantiate tmpl sc] } := by
  have hw : watchEval sc = v.type := by simp [watchEval, hsc]
  simp [step, onValueTypeChange_, hw, hv, hsc, hh, updateElement]

/-- Reduction of a type-change step on a cache miss. -/
theorem typeChange_miss (st : State) (sc : Scope) (v : RdfValue)
    (hsc : sc.value = some v) (hv : v.type ≠ JsVal.undef)
    (hm : lookupCache st.cache (jsKey v.type) = none) :
    step st (Event.typeChange sc)
      = { st with element := [],
                  pending := st.pending ++ [jsKey v.type],
                  resolutionCalls := st.resolutionCalls ++ [jsKey v.type] } := by
  have hw : watchEval sc = v.type := by simp [watchEval, hsc]
  simp [step, onValueTypeChange_, hw, hv, hsc, hm]

/-- Reduction of a completion step with a live pending entry. -/
theorem resolve_pending (st : State) (i : Nat) (key : String) (res : ResolutionResult)
    (sc : Scope) (hp : st.pending[i]? = some key) :
    step st (Event.resolve i res sc)
      = { st with pending := st.pending.eraseIdx i,
                  cache := insertCache st.cache key (templateOfResult res),
                  element := st.element ++ [instantiate (templateOfResult res) sc] } := by
  simp [step, completeResolution, hp, updateElement]

/-- A type-change step never removes pending resolutions: it leaves them
unchanged or appends one new entry. -/
theorem typeChange_pending (st : State) (sc : Scope) :
    (step st (Event.typeChange sc)).pending = st.pending ∨
    ∃ k, (step st (Event.typeChange sc)).pending = st.pending ++ [k] := by
  by_cases h : watchEval sc = JsVal.undef
  · left; simp [step, onValueTypeChange_, h]
  · cases hsc : sc.value with
    | none => left; simp [step, onValueTypeChange_, h, hsc]
    | some v =>
      cases hl : lookupCache st.cache (jsKey v.type) with
      | none => right; exact ⟨jsKey v.type, by simp [step, onValueTypeChange_, h, hsc, hl]⟩
      | some tmpl => left; simp [step, onValueTypeChange_, h, hsc, hl]

/-- The one-pass dash insertion agrees with the successor-pair description. -/
theorem camelDash_pairs (cs : List Char) :
    camelDash cs = (cs.zip ((cs.drop 1).map some ++ [none])).flatMap pairExpand := by
  induction cs with
  | nil => rfl
  | cons c1 rest ih =>
    cases rest with
    | nil => rfl
    | cons c2 rest2 =>
      by_cases h : (isLowerOrDigit c1 && c2.isUpper) = true
      · simp only [camelDash, h, if_true, List.drop_succ_cons, List.drop_zero, List.map_cons,
          List.cons_append, List.zip_cons_cons, List.flatMap_cons, pairExpand, h]
        simp [ih, pairExpand]
      · simp only [camelDash, h, if_false, List.drop_succ_cons, List.drop_zero, List.map_cons,
          List.cons_append, List.zip_cons_cons, List.flatMap_cons, pairExpand, h]
        simp [ih, pairExpand, h]

/-! ## Claims -/

/-- Claim C1 (amended): when registry resolution for a type fails, the failure
fallback template IS stored in the Template Cache under that type's key — the
caching continuation runs for success and failure alike — and a subsequent
render of the same type is a cache hit that triggers no further resolution
call. -/
theorem c1_failure_template_cached (st : State) (i : Nat) (key : String)
    (sc sc2 : Scope) (v2 : RdfValue)
    (hp : st.pending[i]? = some key)
    (hsc2 : sc2.value = some v2) (hk : jsKey v2.type = key)
    (hv2 : v2.type ≠ JsVal.undef) :
    lookupCache (step st (Event.resolve i ResolutionResult.failure sc)).cache key
      = some Template.noDirective ∧
    (step (step st (Event.resolve i ResolutionResult.failure sc))
          (Event.typeChange sc2)).resolutionCalls
      = (step st (Event.resolve i ResolutionResult.failure sc)).resolutionCalls := by
  have hres := resolve_pending st i key ResolutionResult.failure sc hp
  constructor
  · rw [hres]; exact lookup_insert_self _ _ _
  · have hh : lookupCache
        (step st (Event.resolve i ResolutionResult.failure sc)).cache (jsKey v2.type)
        = some Template.noDirective := by
      rw [hk, hres]; exact lookup_insert_self _ _ _
    rw [typeChange_hit _ sc2 v2 Template.noDirective hsc2 hv2 hh]

/-- Claim C1 (counterexample to the claim as stated): after the failed
resolution for type "Foo" completes, the cache DOES hold an entry for "Foo"
(the claim says it holds none), and a further render of type "Foo" triggers NO
new resolution call (the call log stays at the single original call; the claim
says every future render repeats resolution). -/
theorem c1_counterexample :
    lookupCache stB.cache "Foo" = some Template.noDirective ∧
    (step stB (Event.typeChange scFoo)).resolutionCalls = ["Foo"] := by
  exact ⟨by decide, by decide⟩

/-- Claim C1 witness: the amended theorem at the concrete failing run for type
"Foo". -/
theorem c1_witness :
    stA.pending[0]? = some "Foo" ∧
    lookupCache (step stA (Event.resolve 0 ResolutionResult.failure scFoo)).cache "Foo"
      = some Template.noDirective ∧
    (step (step stA (Event.resolve 0 ResolutionResult.failure scFoo))
          (Event.typeChange scFoo)).resolutionCalls
      = (step stA (Event.resolve 0 ResolutionResult.failure scFoo)).resolutionCalls :=
  ⟨by decide,
   (c1_failure_template_cached stA 0 "Foo" scFoo scFoo vFoo (by decide) rfl rfl
     (by decide)).1,
   (c1_failure_template_cached stA 0 "Foo" scFoo scFoo vFoo (by decide) rfl rfl
     (by decide)).2⟩

/-- Claim C2 (amended): when resolution for a type fails, the rendered output
contains the literal text "No directive for type: " followed by the type
interpolated from the scope current at completion time and a full stop — not
the text of the unreachable fallback branch. -/
theorem c2_no_directive_message (st : State) (i : Nat) (key : String) (sc : Scope)
    (hp : st.pending[i]? = some key) :
    outputContains (step st (Event.resolve i ResolutionResult.failure sc)).element
      ("No directive for type: " ++ interpolate sc ++ ".") = true := by
  rw [resolve_pending st i key ResolutionResult.failure sc hp]
  have hocc : occursInL ("No directive for type: " ++ interpolate sc ++ ".").data
      (renderText (Fragment.noDirectiveMsg (interpolate sc))).data = true := by
    have h := occursInL_append_mid
      ("<span>" ++ "<p class=\"form-control-static\">").data
      ("No directive for type: " ++ interpolate sc ++ ".").data
      ("</p>" ++ "</span>").data
    simpa [renderText, List.append_assoc] using h
  simp only [outputContains, instantiate, templateOfResult, List.any_append,
    List.any_cons, List.any_nil, Bool.or_false, Bool.or_eq_true]
  exact Or.inr hocc

/-- Claim C2 (counterexample to the claim as stated): after the failed
resolution for type "Foo" completes, the rendered output does NOT contain the
literal text "Can't handle type: Foo" — that text lives only on an unreachable
branch of `updateElement`. -/
theorem c2_counterexample :
    outputContains stB.element (cantHandleText ++ "Foo") = false := by decide

/-- Claim C2 witness: the amended theorem at the concrete failing run for type
"Foo". -/
theorem c2_witness :
    stA.pending[0]? = some "Foo" ∧
    outputContains (step stA (Event.resolve 0 ResolutionResult.failure scFoo)).element
      ("No directive for type: " ++ interpolate scFoo ++ ".") = true :=
  ⟨by decide, c2_no_directive_message stA 0 "Foo" scFoo (by decide)⟩

/-- Claim C3: a render of a type absent from the cache makes exactly one
resolution call (the call log grows by exactly that type's key); after a
successful resolution for that key completes, a further render of the same
type makes zero further calls. -/
theorem c3_resolution_counting :
    (∀ (st : State) (sc : Scope) (v : RdfValue),
      sc.value = some v → v.type ≠ JsVal.undef →
      lookupCache st.cache (jsKey v.type) = none →
      (step st (Event.typeChange sc)).resolutionCalls
        = st.resolutionCalls ++ [jsKey v.type]) ∧
    (∀ (st : State) (i : Nat) (key d : String) (sc sc2 : Scope) (v2 : RdfValue),
      st.pending[i]? = some key →
      sc2.value = some v2 → jsKey v2.type = key → v2.type ≠ JsVal.undef →
      (step (step st (Event.resolve i (ResolutionResult.success d) sc))
            (Event.typeChange sc2)).resolutionCalls
        = (step st (Event.resolve i (ResolutionResult.success d) sc)).resolutionCalls) := by
  constructor
  · intro st sc v hsc hv hm
    rw [typeChange_miss st sc v hsc hv hm]
  · intro st i key d sc sc2 v2 hp hsc2 hk hv2
    have hres := resolve_pending st i key (ResolutionResult.success d) sc hp
    have hh : lookupCache
        (step st (Event.resolve i (ResolutionResult.success d) sc)).cache (jsKey v2.type)
        = some (Template.widget (camelCaseToDashDelimited d)) := by
      rw [hk, hres]; exact lookup_insert_self _ _ _
    rw [typeChange_hit _ sc2 v2 _ hsc2 hv2 hh]

/-- Claim C3 witness: the first render of "Foo" logs exactly one call; after a
successful resolution, a re-render of "Foo" logs none. -/
theorem c3_witness :
    (step initState (Event.typeChange scFoo)).resolutionCalls
      = initState.resolutionCalls ++ ["Foo"] ∧
    (step (step stA (Event.resolve 0 (ResolutionResult.success "myWidgetName") scFoo))
          (Event.typeChange scFoo)).resolutionCalls
      = (step stA (Event.resolve 0 (ResolutionResult.success "myWidgetName") scFoo)).resolutionCalls :=
  ⟨c3_resolution_counting.1 initState scFoo vFoo rfl (by decide) rfl,
   c3_resolution_counting.2 stA 0 "Foo" "myWidgetName" scFoo scFoo vFoo (by decide)
     rfl rfl (by decide)⟩

/-- Claim C4: the camel-case conversion agrees with the stated rule — a dash
exactly between each lowercase-letter-or-digit character immediately followed
by an uppercase character, then lowercasing — on every input; it maps
"simpleValue" to "simple-value" and "fooBarBaz" to "foo-bar-baz"; and it is
not the naive dash-before-every-uppercase transform. -/
theorem c4_camel_case_rule :
    (∀ s : String, camelCaseToDashDelimited s = specCamelCase s) ∧
    camelCaseToDashDelimited "simpleValue" = "simple-value" ∧
    camelCaseToDashDelimited "fooBarBaz" = "foo-bar-baz" ∧
    camelCaseToDashDelimited "HTTPValue" ≠ naiveDashDelimited "HTTPValue" := by
  refine ⟨?_, by decide, by decide, by decide⟩
  intro s
  simp [camelCaseToDashDelimited, specCamelCase, camelDash_pairs]

/-- Claim C5: a successful resolution whose descriptor carries directive
identifier `d` appends to the element a host fragment whose tag is the
camel-case-to-dash-delimited conversion of `d`, and whose markup contains
exactly the two attribute bindings `metadata="metadata"` and
`value="value"`. -/
theorem c5_success_tag (st : State) (i : Nat) (key d : String) (sc : Scope)
    (hp : st.pending[i]? = some key) :
    (step st (Event.resolve i (ResolutionResult.success d) sc)).element
      = st.element ++ [Fragment.widgetInst (camelCaseToDashDelimited d)] ∧
    outputContains [Fragment.widgetInst (camelCaseToDashDelimited d)]
      ("<" ++ camelCaseToDashDelimited d ++ " metadata=\"metadata\" value=\"value\" />")
      = true := by
  constructor
  · rw [resolve_pending st i key (ResolutionResult.success d) sc hp]
    rfl
  · have h := occursInL_append_mid ("<span>").data
      ("<" ++ camelCaseToDashDelimited d ++ " metadata=\"metadata\" value=\"value\" />").data
      ("</span>").data
    simp only [outputContains, List.any_cons, List.any_nil, Bool.or_false]
    simpa [renderText, List.append_assoc] using h

/-- Claim C5 witness: identifier "myWidgetName" yields the host tag
"my-widget-name", at the concrete resolution of type "Foo". -/
theorem c5_witness :
    camelCaseToDashDelimited "myWidgetName" = "my-widget-name" ∧
    (step stA (Event.resolve 0 (ResolutionResult.success "myWidgetName") scFoo)).element
      = stA.element ++ [Fragment.widgetInst (camelCaseToDashDelimited "myWidgetName")] ∧
    outputContains [Fragment.widgetInst (camelCaseToDashDelimited "myWidgetName")]
      ("<" ++ camelCaseToDashDelimited "myWidgetName"
        ++ " metadata=\"metadata\" value=\"value\" />") = true :=
  ⟨by decide,
   (c5_success_tag stA 0 "Foo" "myWidgetName" scFoo (by decide)).1,
   (c5_success_tag stA 0 "Foo" "myWidgetName" scFoo (by decide)).2⟩

/-- Claim C6: the element is cleared unconditionally before the new type value
is examined (the step's resulting element never depends on the previous
element contents), and when the new watch value is undefined the handler stops
with the slot empty and the rest of the state — cache, pending resolutions,
call log — untouched. -/
theorem c6_clear_then_undefined_stops :
    (∀ (st : State) (e : List Fragment) (sc : Scope),
      (step { st with element := e } (Event.typeChange sc)).element
        = (step st (Event.typeChange sc)).element) ∧
    (∀ (st : State) (sc : Scope), watchEval sc = JsVal.undef →
      step st (Event.typeChange sc) = { st with element := [] }) := by
  constructor
  · intro st e sc
    by_cases h : watchEval sc = JsVal.undef
    · simp [step, onValueTypeChange_, h]
    · cases hsc : sc.value with
      | none => simp [step, onValueTypeChange_, h, hsc]
      | some v =>
        cases hl : lookupCache st.cache (jsKey v.type) with
        | none => simp [step, onValueTypeChange_, h, hsc, hl]
        | some tmpl => simp [step, onValueTypeChange_, h, hsc, hl, updateElement]
  · intro st sc h
    exact typeChange_undef st sc h

/-- Claim C6 witness: at the state holding a rendered failure fragment, a
type change to an undefined type empties the slot and changes nothing else. -/
theorem c6_witness :
    (step { stB with element := [] } (Event.typeChange scUndef)).element
      = (step stB (Event.typeChange scUndef)).element ∧
    step stB (Event.typeChange scUndef) = { stB with element := [] } :=
  ⟨c6_clear_then_undefined_stops.1 stB [] scUndef,
   c6_clear_then_undefined_stops.2 stB scUndef rfl⟩

/-- Claim C7: `clearCaches` empties the Template Cache entirely, leaves the
already-rendered output untouched, and a following render of any (in
particular a previously cached) defined type misses the cache and triggers
exactly one new resolution call. -/
theorem c7_clear_cache (st : State) (sc : Scope) (v : RdfValue)
    (hsc : sc.value = some v) (hv : v.type ≠ JsVal.undef) :
    (clearCaches st).cache = [] ∧
    (clearCaches st).element = st.element ∧
    (step (clearCaches st) (Event.typeChange sc)).resolutionCalls
      = st.resolutionCalls ++ [jsKey v.type] := by
  refine ⟨rfl, rfl, ?_⟩
  rw [typeChange_miss (clearCaches st) sc v hsc hv rfl]
  rfl

/-- Claim C7 witness: clearing the cache at the state where "Foo" is cached,
then re-rendering "Foo", makes exactly one new resolution call. -/
theorem c7_witness :
    (clearCaches stB).cache = [] ∧
    (clearCaches stB).element = stB.element ∧
    (step (clearCaches stB) (Event.typeChange scFoo)).resolutionCalls
      = stB.resolutionCalls ++ ["Foo"] :=
  c7_clear_cache stB scFoo vFoo rfl (by decide)

/-- Claim C8: a later type change never cancels an in-flight resolution (the
pending entry survives, the type change only clears the slot), and when the
stale resolution completes its continuation still fires, appending its
fragment to whatever the slot holds at completion time. -/
theorem c8_stale_resolution_appends (st : State) (i : Nat) (key : String)
    (sc1 sc2 : Scope) (res : ResolutionResult)
    (hp : st.pending[i]? = some key) :
    (step st (Event.typeChange sc1)).pending[i]? = some key ∧
    (step (step st (Event.typeChange sc1)) (Event.resolve i res sc2)).element
      = (step st (Event.typeChange sc1)).element
        ++ [instantiate (templateOfResult res) sc2] := by
  have h1 : (step st (Event.typeChange sc1)).pending[i]? = some key := by
    rcases typeChange_pending st sc1 with h | ⟨k, h⟩
    · rw [h]; exact hp
    · rw [h]; exact getPending_append _ _ _ _ hp
  refine ⟨h1, ?_⟩
  rw [resolve_pending _ i key res sc2 h1]

/-- Claim C8 witness: the resolution of "Foo" is pending, a type change to an
undefined type clears the slot, and the stale failure continuation still
appends its fragment to the cleared slot. -/
theorem c8_witness :
    (step stA (Event.typeChange scUndef)).pending[0]? = some "Foo" ∧
    (step (step stA (Event.typeChange scUndef))
          (Event.resolve 0 ResolutionResult.failure scFoo)).element
      = (step stA (Event.typeChange scUndef)).element
        ++ [instantiate (templateOfResult ResolutionResult.failure) scFoo] :=
  c8_stale_resolution_appends stA 0 "Foo" scUndef scFoo ResolutionResult.failure
    (by decide)

/-- Claim C9: no operation of the component other than registry resolution can
fail — the exception-aware semantics (in which the unreachable undefined-
template branch and the unreachable undefined-value branch raise the
TypeErrors the source would throw) returns a normal result equal to the total
semantics on every state and event; in particular the cache lookup and the
identifier transform, both total functions in the model, are exercised without
failure. -/
theorem c9_no_failure (st : State) (ev : Event) :
    stepE st ev = Except.ok (step st ev) := by
  cases ev with
  | typeChange sc =>
    by_cases h : watchEval sc = JsVal.undef
    · simp [stepE, step, onValueTypeChangeE, onValueTypeChange_, h]
    · cases hsc : sc.value with
      | none => exact absurd (by simp [watchEval, hsc]) h
      | some v =>
        cases hl : lookupCache st.cache (jsKey v.type) with
        | none =>
          simp [stepE, step, onValueTypeChangeE, onValueTypeChange_, h, hsc, hl]
        | some tmpl =>
          simp [stepE, step, onValueTypeChangeE, onValueTypeChange_, h, hsc, hl,
            updateElementE, updateElement]
  | resolve i res sc =>
    cases hp : st.pending[i]? with
    | none => simp [stepE, step, completeResolutionE, completeResolution, hp]
    | some key =>
      simp [stepE, step, completeResolutionE, completeResolution, hp,
        updateElementE, updateElement]

/-- Claim C10: a defined non-undefined watch value — in particular null — does
not stop the handler after the clear: it reaches the cache lookup and, on a
miss, performs a registry resolution with the bound value's (key-coerced)
type field; on a hit it renders the cached template. -/
theorem c10_null_passes_guard (st : State) (v : RdfValue)
    (hv : v.type ≠ JsVal.undef) :
    (lookupCache st.cache (jsKey v.type) = none →
      step st (Event.typeChange { value := some v })
        = { st with element := [],
                    pending := st.pending ++ [jsKey v.type],
                    resolutionCalls := st.resolutionCalls ++ [jsKey v.type] }) ∧
    (∀ tmpl : Template, lookupCache st.cache (jsKey v.type) = some tmpl →
      step st (Event.typeChange { value := some v })
        = { st with element := [instantiate tmpl { value := some v }] }) := by
  constructor
  · intro hm
    exact typeChange_miss st _ v rfl hv hm
  · intro tmpl hh
    exact typeChange_hit st _ v tmpl rfl hv hh

/-- Claim C10 witness: a type change to null on the empty cache passes the
undefined guard and performs a resolution call under the coerced key
"null". -/
theorem c10_witness :
    step initState (Event.typeChange { value := some { type := JsVal.null } })
      = { initState with element := [], pending := ["null"],
                         resolutionCalls := ["null"] } :=
  (c10_null_passes_guard initState { type := JsVal.null } (by decide)).1 rfl
